import Mathlib

/-!
Verification of the GHL → ADF lead exporter (`main.py`).

The embedding models the JSON-like lead records the Python code receives,
the `lxml` element tree that `generate_adf_xml` builds, the pretty-printed
serialization, and the in-memory dedup set used by `handle_webhook`.
Python dynamic-typing failures (`AttributeError` from calling `.get` on a
non-dict, `TypeError` from assigning a non-string to `.text` or iterating a
non-iterable) are modelled with `Except PyError`.
-/

/-- JSON-like values as delivered to the Python code (`request.get_json()` /
the GHL API response). Objects keep insertion order, as Python dicts do. -/
inductive JValue where
  | null : JValue
  | bool : Bool → JValue
  | num : Int → JValue
  | str : String → JValue
  | arr : List JValue → JValue
  | obj : List (String × JValue) → JValue
  deriving Repr

/-- Dynamic-typing errors the Python code can raise while mapping. -/
inductive PyError where
  | attributeError : PyError
  | typeError : PyError
  deriving DecidableEq, Repr

/-- First value stored under `key` (Python dict keys are unique, so first
match is the dict lookup). -/
def lookupKey : List (String × JValue) → String → Option JValue
  | [], _ => none
  | (k, v) :: rest, key => if k = key then some v else lookupKey rest key

/-- `x.get(key, dflt)`: dict lookup with default; calling `.get` on a
non-dict raises `AttributeError`. -/
def pyGet : JValue → String → JValue → Except PyError JValue
  | .obj fields, key, dflt => .ok ((lookupKey fields key).getD dflt)
  | _, _, _ => .error .attributeError

/-- Python truthiness of a JSON value. -/
def truthy : JValue → Bool
  | .null => false
  | .bool b => b
  | .num n => n != 0
  | .str s => s != ""
  | .arr l => !l.isEmpty
  | .obj f => !f.isEmpty

mutual

/-- Python `repr` of a JSON value (simple strings only; enough for the
values the mapper stringifies). -/
def pyRepr : JValue → String
  | .null => "None"
  | .bool true => "True"
  | .bool false => "False"
  | .num n => toString n
  | .str s => "\x27" ++ s ++ "\x27"
  | .arr l => "[" ++ pyReprItems l ++ "]"
  | .obj f => "\x7b" ++ pyReprFields f ++ "\x7d"

/-- Comma-separated reprs of list items. -/
def pyReprItems : List JValue → String
  | [] => ""
  | [x] => pyRepr x
  | x :: xs => pyRepr x ++ ", " ++ pyReprItems xs

/-- Comma-separated reprs of dict entries. -/
def pyReprFields : List (String × JValue) → String
  | [] => ""
  | [(k, v)] => "\x27" ++ k ++ "\x27: " ++ pyRepr v
  | (k, v) :: xs => "\x27" ++ k ++ "\x27: " ++ pyRepr v ++ ", " ++ pyReprFields xs

end

/-- Python `str()` of a JSON value (`str(None) = "None"`). -/
def pyStr : JValue → String
  | .str s => s
  | v => pyRepr v

/-- Assigning a value to an lxml `.text` slot: only strings are accepted,
anything else raises `TypeError`. -/
def textAssign : JValue → Except PyError String
  | .str s => .ok s
  | _ => .error .typeError

/-- Python iteration (`for x in v`): lists yield items, strings yield
one-character strings, dicts yield their keys, other values raise. -/
def pyIter : JValue → Except PyError (List JValue)
  | .arr l => .ok l
  | .str s => .ok (s.toList.map fun c => .str (String.singleton c))
  | .obj f => .ok (f.map fun kv => .str kv.1)
  | _ => .error .typeError

/-- An lxml element: tag, attributes (in creation order), optional text,
children (in creation order). -/
inductive Xml where
  | elem : String → List (String × String) → Option String → List Xml → Xml
  deriving Repr

/-- Tag name of an element. -/
def Xml.tag : Xml → String
  | .elem t _ _ _ => t

/-- Attribute list of an element. -/
def Xml.attrList : Xml → List (String × String)
  | .elem _ a _ _ => a

/-- Text of an element (`none` when `.text` was never assigned). -/
def Xml.text : Xml → Option String
  | .elem _ _ tx _ => tx

/-- Children of an element. -/
def Xml.children : Xml → List Xml
  | .elem _ _ _ cs => cs

mutual

/-- Every element of the subtree rooted at `x`, in document order. -/
def subElems : Xml → List Xml
  | .elem t a tx cs => .elem t a tx cs :: subElemsList cs

/-- Every element of the subtrees of a list of siblings, in document order. -/
def subElemsList : List Xml → List Xml
  | [] => []
  | c :: cs => subElems c ++ subElemsList cs

end

/-- All elements of the subtree of `x` carrying tag `t`, in document order. -/
def elemsTagged (t : String) (x : Xml) : List Xml :=
  (subElems x).filter fun e => e.tag == t

/- ## The mapper (`generate_adf_xml`, main.py lines 49-118), stage by stage.
The stages appear in the exact evaluation order of the Python loop body, so
an error raised by an earlier line preempts later ones, as in the source. -/

/-- `str(lead.get("id", ""))` (main.py lines 58 and 89). -/
def leadIdText (lead : JValue) : Except PyError String := do
  let v ← pyGet lead "id" (.str "")
  pure (pyStr v)

/-- One `name` sub-element with a `part` attribute, emitted only when the
value is truthy (main.py lines 67-70). -/
def nameElem (part : String) (v : JValue) : Except PyError (List Xml) :=
  if truthy v then do
    let t ← textAssign v
    pure [Xml.elem "name" [("part", part)] (some t) []]
  else pure []

/-- The `for key in [...]: value = src.get(key, ""); if value: ...` loop
shared by the contact block (lines 73-76) and the vehicle block
(lines 82-85): one sub-element per truthy value, in key order. -/
def loopFieldElems (src : JValue) : List String → Except PyError (List Xml)
  | [] => pure []
  | key :: keys => do
      let v ← pyGet src key (.str "")
      if truthy v then
        let t ← textAssign v
        let rest ← loopFieldElems src keys
        pure (Xml.elem key [] (some t) [] :: rest)
      else
        loopFieldElems src keys

/-- The `contact` element (main.py lines 61-76): optional first/last name
elements followed by the optional contact fields. -/
def buildContact (lead : JValue) : Except PyError Xml := do
  let firstName ← pyGet lead "firstName" .null
  let lastName ← pyGet lead "lastName" .null
  let firstElems ← nameElem "first" firstName
  let lastElems ← nameElem "last" lastName
  let fieldElems ← loopFieldElems lead ["phone", "email", "address1", "city", "state", "postalCode"]
  pure (Xml.elem "contact" [] none (firstElems ++ lastElems ++ fieldElems))

/-- The vehicle block (main.py lines 79-85): emitted only when
`lead.get("vehicleOfInterest", {})` is truthy; year/make/model
sub-elements are filtered individually. -/
def buildVehicle (lead : JValue) : Except PyError (List Xml) := do
  let vehicleInfo ← pyGet lead "vehicleOfInterest" (.obj [])
  if truthy vehicleInfo then
    let subs ← loopFieldElems vehicleInfo ["year", "make", "model"]
    pure [Xml.elem "vehicle" [("interest", "buy")] none subs]
  else
    pure []

/-- The comments block (main.py lines 93-98): primary comments from
`lead["CUSTOMER"]["COMMENTS"]`, AI memory from `lead["Chat GPT"]`; when the
AI memory is truthy the f-string `f"{comments}\n\nAI Memory:\n{ai_memory}"`
replaces the comments value. -/
def buildComments (lead : JValue) : Except PyError (List Xml) := do
  let customerVal ← pyGet lead "CUSTOMER" (.obj [])
  let comments0 ← pyGet customerVal "COMMENTS" (.str "")
  let aiMemory ← pyGet lead "Chat GPT" (.str "")
  let comments : JValue :=
    if truthy aiMemory then
      .str (pyStr comments0 ++ "\n\nAI Memory:\n" ++ pyStr aiMemory)
    else comments0
  if truthy comments then
    let t ← textAssign comments
    pure [Xml.elem "comments" [] (some t) []]
  else
    pure []

/-- The vendor block (main.py lines 101-104). -/
def buildVendor (lead : JValue) : Except PyError (List Xml) := do
  let vendorVal ← pyGet lead "VENDOR" (.obj [])
  let vendorName ← pyGet vendorVal "VENDORNAME" (.str "")
  if truthy vendorName then
    let t ← textAssign vendorName
    pure [Xml.elem "vendor" [] none [Xml.elem "vendorname" [] (some t) []]]
  else
    pure []

/-- The constant provider block (main.py lines 107-109). -/
def providerElem : Xml :=
  Xml.elem "provider" [] none
    [Xml.elem "name" [("part", "full")] (some "VERBLEAD") [],
     Xml.elem "service" [] (some "AI Sales") []]

/-- One `tag` element per iterated item (main.py lines 114-115); the
`.text = tag` assignment requires a string. -/
def tagElemsOf : List JValue → Except PyError (List Xml)
  | [] => pure []
  | t :: ts => do
      let s ← textAssign t
      let rest ← tagElemsOf ts
      pure (Xml.elem "tag" [] (some s) [] :: rest)

/-- The tags block (main.py lines 113-115). -/
def buildTags (lead : JValue) : Except PyError (List Xml) := do
  let tagsVal ← pyGet lead "tags" (.arr [])
  let items ← pyIter tagsVal
  tagElemsOf items

/-- One `prospect` subtree for one lead (the body of the loop at main.py
lines 56-115), with children in lxml creation order: plain id, customer
(contact then optional comments), optional vehicle, attributed id,
optional vendor, provider, tags. -/
def buildProspect (lead : JValue) : Except PyError Xml := do
  let idText ← leadIdText lead
  let contact ← buildContact lead
  let vehicleBlock ← buildVehicle lead
  let id2Text ← leadIdText lead
  let commentsBlock ← buildComments lead
  let vendorBlock ← buildVendor lead
  let tagsBlock ← buildTags lead
  pure (Xml.elem "prospect" [] none
    (Xml.elem "id" [] (some idText) [] ::
     Xml.elem "customer" [] none (contact :: commentsBlock) ::
     (vehicleBlock ++
      (Xml.elem "id" [("sequence", "1"), ("source", "VERBLEAD")] (some id2Text) [] ::
       (vendorBlock ++ (providerElem :: tagsBlock))))))

/-- One prospect per lead, in input order, failing on the first lead whose
mapping raises (the whole `for lead in leads_data` loop). -/
def prospectsOf : List JValue → Except PyError (List Xml)
  | [] => pure []
  | lead :: rest => do
      let p ← buildProspect lead
      let ps ← prospectsOf rest
      pure (p :: ps)

/-- `generate_adf_xml` up to serialization: `None` on an empty lead list,
otherwise the `adf` root holding the prospect subtrees. -/
def generate_adf_tree (leadsData : List JValue) : Except PyError (Option Xml) :=
  if leadsData.isEmpty then .ok none
  else do
    let prospects ← prospectsOf leadsData
    pure (some (Xml.elem "adf" [] none prospects))

/- ## Serialization (`etree.tostring(root, pretty_print=True, encoding="utf-8",
xml_declaration=True)`). -/

/-- lxml escaping for text content. -/
def escText (s : String) : String :=
  ((s.replace "&" "&amp;").replace "<" "&lt;").replace ">" "&gt;"

/-- lxml escaping for attribute values. -/
def escAttr (s : String) : String :=
  (escText s).replace "\"" "&quot;"

/-- Rendered attribute list, in creation order. -/
def renderAttrs : List (String × String) → String
  | [] => ""
  | (k, v) :: rest => " " ++ k ++ "=\"" ++ escAttr v ++ "\"" ++ renderAttrs rest

/-- Two-space indentation per depth level, as lxml pretty-printing emits. -/
def indentStr : Nat → String
  | 0 => ""
  | n + 1 => "  " ++ indentStr n

mutual

/-- Pretty-printed rendering of one element at the given depth. -/
def renderElem (depth : Nat) : Xml → String
  | .elem tag attrs txt children =>
    match txt, children with
    | none, [] => indentStr depth ++ "<" ++ tag ++ renderAttrs attrs ++ "/>\n"
    | some t, [] =>
        indentStr depth ++ "<" ++ tag ++ renderAttrs attrs ++ ">" ++ escText t ++
          "</" ++ tag ++ ">\n"
    | none, _ :: _ =>
        indentStr depth ++ "<" ++ tag ++ renderAttrs attrs ++ ">\n" ++
          renderChildren (depth + 1) children ++ indentStr depth ++ "</" ++ tag ++ ">\n"
    | some t, _ :: _ =>
        indentStr depth ++ "<" ++ tag ++ renderAttrs attrs ++ ">" ++ escText t ++ "\n" ++
          renderChildren (depth + 1) children ++ indentStr depth ++ "</" ++ tag ++ ">\n"

/-- Pretty-printed rendering of a list of siblings. -/
def renderChildren (depth : Nat) : List Xml → String
  | [] => ""
  | c :: cs => renderElem depth c ++ renderChildren depth cs

end

/-- The serialized document: XML declaration followed by the rendered root. -/
def serializeDoc (root : Xml) : String :=
  "<?xml version=\x271.0\x27 encoding=\x27UTF-8\x27?>\n" ++ renderElem 0 root

/-- `generate_adf_xml(leads_data)` (main.py lines 49-118): `None` for an
empty input, otherwise the serialized byte document. -/
def generate_adf_xml (leadsData : List JValue) : Except PyError (Option String) := do
  let tree ← generate_adf_tree leadsData
  pure (tree.map serializeDoc)

/- ## Dedup Gate (`handle_webhook`, main.py lines 142-149). -/

mutual

/-- Python `==` on JSON values. Python `bool` is a subclass of `int`, so
booleans and numbers compare by numeric value (`True == 1`, `False == 0`,
and `hash(True) == hash(1)`, so `1` and `True` collide in a `set`); `None`
equals only `None`; strings compare by content; differently-typed values
are unequal. Containers compare element-wise in order — exact for lists,
and exact for every comparison the dedup set can perform, since a dict
compared against any hashable probe is simply unequal. -/
def beqJ : JValue → JValue → Bool
  | .null, .null => true
  | .bool a, .bool b => a == b
  | .bool a, .num b => (if a then (1 : Int) else 0) == b
  | .num a, .bool b => a == (if b then (1 : Int) else 0)
  | .num a, .num b => a == b
  | .str a, .str b => a == b
  | .arr a, .arr b => beqLJ a b
  | .obj a, .obj b => beqFJ a b
  | _, _ => false

/-- Python `==` on lists of JSON values. -/
def beqLJ : List JValue → List JValue → Bool
  | [], [] => true
  | a :: as_, b :: bs => beqJ a b && beqLJ as_ bs
  | _, _ => false

/-- Python `==` on dicts represented as ordered field lists. -/
def beqFJ : List (String × JValue) → List (String × JValue) → Bool
  | [], [] => true
  | (k, a) :: as_, (l, b) :: bs => k == l && beqJ a b && beqFJ as_ bs
  | _, _ => false

end

/-- Python `x in s` over the processed-leads set, using Python equality. -/
def pyMem (x : JValue) (s : List JValue) : Bool :=
  s.any fun y => beqJ y x

/-- Whether a value may enter a Python `set` (dicts and lists are
unhashable and raise `TypeError`). -/
def hashable : JValue → Bool
  | .arr _ => false
  | .obj _ => false
  | _ => true

/-- Outcome of the Dedup Gate. -/
inductive GateResult where
  | accept : GateResult
  | rejectDuplicate : GateResult
  deriving DecidableEq, Repr

/-- The dedup check on an already-extracted identifier (main.py lines
145-149): reject when the id is already in `processed_leads`, otherwise
record it and accept. -/
def dedupCheck (leadId : JValue) (processed : List JValue) :
    Except PyError (GateResult × List JValue) :=
  if hashable leadId then
    if pyMem leadId processed then .ok (.rejectDuplicate, processed)
    else .ok (.accept, leadId :: processed)
  else .error .typeError

/-- The webhook's dedup step on a raw payload (main.py lines 142-149):
`lead_id = lead_data.get("id")` (default `None`) then the dedup check. -/
def webhookDedup (leadData : JValue) (processed : List JValue) :
    Except PyError (GateResult × List JValue) := do
  let leadId ← pyGet leadData "id" .null
  dedupCheck leadId processed

/-- Whether a JSON value is a mapping (a Python dict). -/
def JValue.isObj : JValue → Bool
  | .obj _ => true
  | _ => false

/-- Shape common to every data-carrying leaf the mapper guards with a
truthiness check: no children, a non-empty text, and a tag that is neither
`id` nor `tag`. -/
def goodLeaf (e : Xml) : Prop :=
  e.children = [] ∧ e.tag ≠ "id" ∧ e.tag ≠ "tag" ∧ ∃ t, e.text = some t ∧ t ≠ ""

/-- Boolean check that no element of a subtree other than the mandatory
`id` elements (and literal tag strings) carries empty text. -/
def emptyOptionalFree (p : Xml) : Bool :=
  (subElems p).all fun e => e.text != some "" || e.tag == "id" || e.tag == "tag"

/- ## Helper lemmas -/

theorem bindE_ok {α β : Type} {x : Except PyError α} {f : α → Except PyError β} {b : β} :
    x >>= f = .ok b ↔ ∃ a, x = .ok a ∧ f a = .ok b := by
  cases x <;> simp [Bind.bind, Except.bind]

theorem pureE_ok {α : Type} {a b : α} :
    (pure a : Except PyError α) = .ok b ↔ a = b := by
  simp [pure, Except.pure]

theorem bindE_ok_l {α β : Type} (a : α) (f : α → Except PyError β) :
    (Except.ok a >>= f : Except PyError β) = f a := rfl

theorem bindE_err_l {α β : Type} (e : PyError) (f : α → Except PyError β) :
    (Except.error e >>= f : Except PyError β) = Except.error e := rfl

theorem textAssign_ok {v : JValue} {t : String} :
    textAssign v = .ok t ↔ v = .str t := by
  cases v <;> simp [textAssign]

theorem truthy_str {s : String} : truthy (.str s) = true ↔ s ≠ "" := by
  simp [truthy]

theorem nameElem_ok {part : String} {v : JValue} {l : List Xml}
    (h : nameElem part v = .ok l) :
    l = [] ∨ ∃ t, t ≠ "" ∧ l = [Xml.elem "name" [("part", part)] (some t) []] := by
  unfold nameElem at h
  cases htv : truthy v with
  | false => simp [htv, pureE_ok] at h; exact Or.inl h
  | true =>
    simp only [htv, if_pos] at h
    rw [bindE_ok] at h
    obtain ⟨t, hta, hp⟩ := h
    rw [pureE_ok] at hp
    rw [textAssign_ok] at hta
    subst hta hp
    exact Or.inr ⟨t, by simpa [truthy_str] using htv, rfl⟩

theorem loopFieldElems_mem {src : JValue} {ks : List String} {l : List Xml}
    (h : loopFieldElems src ks = .ok l) :
    ∀ e ∈ l, ∃ k t, k ∈ ks ∧ t ≠ "" ∧ e = Xml.elem k [] (some t) [] := by
  induction ks generalizing l with
  | nil =>
    unfold loopFieldElems at h
    rw [pureE_ok] at h
    subst h; intro e he; cases he
  | cons k ks ih =>
    unfold loopFieldElems at h
    rw [bindE_ok] at h
    obtain ⟨v, _, h⟩ := h
    cases htv : truthy v with
    | false =>
      simp only [htv, Bool.false_eq_true, if_false] at h
      intro e he
      obtain ⟨k', t, hk', ht, he'⟩ := ih h e he
      exact ⟨k', t, List.mem_cons_of_mem _ hk', ht, he'⟩
    | true =>
      simp only [htv, if_pos] at h
      rw [bindE_ok] at h
      obtain ⟨t, hta, h⟩ := h
      rw [bindE_ok] at h
      obtain ⟨rest, hrest, hp⟩ := h
      rw [pureE_ok] at hp
      rw [textAssign_ok] at hta
      subst hta hp
      intro e he
      rcases List.mem_cons.mp he with he | he
      · exact ⟨k, t, List.mem_cons_self .., by simpa [truthy_str] using htv, he⟩
      · obtain ⟨k', t', hk', ht', he'⟩ := ih hrest e he
        exact ⟨k', t', List.mem_cons_of_mem _ hk', ht', he'⟩

theorem buildContact_ok {lead : JValue} {c : Xml}
    (h : buildContact lead = .ok c) :
    ∃ cs, c = Xml.elem "contact" [] none cs ∧ ∀ e ∈ cs, goodLeaf e := by
  unfold buildContact at h
  rw [bindE_ok] at h; obtain ⟨fn, _, h⟩ := h
  rw [bindE_ok] at h; obtain ⟨ln, _, h⟩ := h
  rw [bindE_ok] at h; obtain ⟨fe, hfe, h⟩ := h
  rw [bindE_ok] at h; obtain ⟨le, hle, h⟩ := h
  rw [bindE_ok] at h; obtain ⟨ce, hce, hp⟩ := h
  rw [pureE_ok] at hp
  subst hp
  refine ⟨fe ++ le ++ ce, rfl, ?_⟩
  intro e he
  have hname : ∀ part (v : JValue) (l : List Xml), nameElem part v = .ok l →
      e ∈ l → goodLeaf e := by
    intro part v l hl hel
    rcases nameElem_ok hl with h0 | ⟨t, ht, h1⟩
    · subst h0; cases hel
    · subst h1
      rcases List.mem_singleton.mp hel with rfl
      exact ⟨rfl, by simp [Xml.tag], by simp [Xml.tag], t, rfl, ht⟩
  rcases List.mem_append.mp he with he | he
  · rcases List.mem_append.mp he with he | he
    · exact hname _ _ _ hfe he
    · exact hname _ _ _ hle he
  · obtain ⟨k, t, hk, ht, he'⟩ := loopFieldElems_mem hce e he
    subst he'
    refine ⟨rfl, ?_, ?_, t, rfl, ht⟩ <;> (simp [Xml.tag]; fin_cases hk <;> simp)

theorem buildVehicle_ok {lead : JValue} {vl : List Xml}
    (h : buildVehicle lead = .ok vl) :
    vl = [] ∨ ∃ subs, vl = [Xml.elem "vehicle" [("interest", "buy")] none subs] ∧
      ∀ e ∈ subs, goodLeaf e := by
  unfold buildVehicle at h
  rw [bindE_ok] at h
  obtain ⟨info, _, h⟩ := h
  cases hti : truthy info with
  | false => simp [hti, pureE_ok] at h; exact Or.inl h
  | true =>
    simp only [hti, if_pos] at h
    rw [bindE_ok] at h
    obtain ⟨subs, hsubs, hp⟩ := h
    rw [pureE_ok] at hp
    subst hp
    refine Or.inr ⟨subs, rfl, ?_⟩
    intro e he
    obtain ⟨k, t, hk, ht, he'⟩ := loopFieldElems_mem hsubs e he
    subst he'
    refine ⟨rfl, ?_, ?_, t, rfl, ht⟩ <;> (simp [Xml.tag]; fin_cases hk <;> simp)

theorem buildComments_ok {lead : JValue} {l : List Xml}
    (h : buildComments lead = .ok l) :
    l = [] ∨ ∃ t, t ≠ "" ∧ l = [Xml.elem "comments" [] (some t) []] := by
  unfold buildComments at h
  rw [bindE_ok] at h; obtain ⟨cv, _, h⟩ := h
  rw [bindE_ok] at h; obtain ⟨c0, _, h⟩ := h
  rw [bindE_ok] at h; obtain ⟨ai, _, h⟩ := h
  set comments : JValue :=
    (if truthy ai then .str (pyStr c0 ++ "\n\nAI Memory:\n" ++ pyStr ai) else c0) with hc
  cases htc : truthy comments with
  | false => simp only [htc, Bool.false_eq_true, if_false, pureE_ok] at h; exact Or.inl h.symm
  | true =>
    simp only [htc, if_pos] at h
    rw [bindE_ok] at h
    obtain ⟨t, hta, hp⟩ := h
    rw [pureE_ok] at hp
    rw [textAssign_ok] at hta
    subst hp
    refine Or.inr ⟨t, ?_, rfl⟩
    rw [hta] at htc
    exact truthy_str.mp htc

theorem buildVendor_ok {lead : JValue} {l : List Xml}
    (h : buildVendor lead = .ok l) :
    l = [] ∨ ∃ t, t ≠ "" ∧
      l = [Xml.elem "vendor" [] none [Xml.elem "vendorname" [] (some t) []]] := by
  unfold buildVendor at h
  rw [bindE_ok] at h; obtain ⟨vv, _, h⟩ := h
  rw [bindE_ok] at h; obtain ⟨vn, _, h⟩ := h
  cases htv : truthy vn with
  | false => simp only [htv, Bool.false_eq_true, if_false, pureE_ok] at h; exact Or.inl h.symm
  | true =>
    simp only [htv, if_pos] at h
    rw [bindE_ok] at h
    obtain ⟨t, hta, hp⟩ := h
    rw [pureE_ok] at hp
    rw [textAssign_ok] at hta
    subst hp
    subst hta
    exact Or.inr ⟨t, truthy_str.mp htv, rfl⟩

theorem tagElemsOf_mem {items : List JValue} {l : List Xml}
    (h : tagElemsOf items = .ok l) :
    ∀ e ∈ l, ∃ s, e = Xml.elem "tag" [] (some s) [] := by
  induction items generalizing l with
  | nil =>
    unfold tagElemsOf at h
    rw [pureE_ok] at h
    subst h; intro e he; cases he
  | cons x xs ih =>
    unfold tagElemsOf at h
    rw [bindE_ok] at h
    obtain ⟨s, _, h⟩ := h
    rw [bindE_ok] at h
    obtain ⟨rest, hrest, hp⟩ := h
    rw [pureE_ok] at hp
    subst hp
    intro e he
    rcases List.mem_cons.mp he with he | he
    · exact ⟨s, he⟩
    · exact ih hrest e he

theorem buildTags_ok {lead : JValue} {l : List Xml}
    (h : buildTags lead = .ok l) :
    ∀ e ∈ l, ∃ s, e = Xml.elem "tag" [] (some s) [] := by
  unfold buildTags at h
  rw [bindE_ok] at h; obtain ⟨tv, _, h⟩ := h
  rw [bindE_ok] at h; obtain ⟨items, _, h⟩ := h
  exact tagElemsOf_mem h

mutual

theorem beqJ_refl : ∀ v : JValue, beqJ v v = true
  | .null => rfl
  | .bool b => by simp [beqJ]
  | .num n => by simp [beqJ]
  | .str s => by simp [beqJ]
  | .arr l => by simp [beqJ]; exact beqLJ_refl l
  | .obj f => by simp [beqJ]; exact beqFJ_refl f

theorem beqLJ_refl : ∀ l : List JValue, beqLJ l l = true
  | [] => rfl
  | x :: xs => by simp [beqLJ]; exact ⟨beqJ_refl x, beqLJ_refl xs⟩

theorem beqFJ_refl : ∀ f : List (String × JValue), beqFJ f f = true
  | [] => rfl
  | (k, v) :: xs => by simp [beqFJ]; exact ⟨beqJ_refl v, beqFJ_refl xs⟩

end

/-- Python's bool/int cross-type equality is reflected: `1 == True`. -/
theorem beqJ_num_one_bool_true : beqJ (.num 1) (.bool true) = true := rfl

/-- An id of `true` arriving after id `1` was recorded is rejected as a
duplicate, as CPython's `True in {1}` is `True`. -/
theorem dedup_bool_after_num_rejected :
    dedupCheck (.bool true) [JValue.num 1] = .ok (.rejectDuplicate, [JValue.num 1]) := rfl

theorem mem_subElemsList {e : Xml} {l : List Xml} :
    e ∈ subElemsList l ↔ ∃ c ∈ l, e ∈ subElems c := by
  induction l with
  | nil => simp [subElemsList]
  | cons c cs ih => simp [subElemsList, List.mem_append, ih]

theorem subElems_leaf (e : Xml) (h : e.children = []) : subElems e = [e] := by
  cases e with
  | elem t a tx cs =>
    simp [Xml.children] at h
    subst h
    simp [subElems, subElemsList]

theorem subElemsList_goodLeaf {e : Xml} {cs : List Xml} (hall : ∀ x ∈ cs, goodLeaf x)
    (he : e ∈ subElemsList cs) :
    e.tag ≠ "id" ∧ e.tag ≠ "tag" ∧ ∃ t, e.text = some t ∧ t ≠ "" := by
  rw [mem_subElemsList] at he
  obtain ⟨c, hc, hec⟩ := he
  obtain ⟨hch, hid, htg, t, htx, ht⟩ := hall c hc
  rw [subElems_leaf c hch] at hec
  rcases List.mem_singleton.mp hec with rfl
  exact ⟨hid, htg, t, htx, ht⟩

/-- Inversion of a successful `buildProspect`: every stage succeeded, both
id texts are the same value, and the prospect has the fixed child layout. -/
theorem buildProspect_inv {lead : JValue} {p : Xml}
    (h : buildProspect lead = .ok p) :
    ∃ idText contact vehicleBlock commentsBlock vendorBlock tagsBlock,
      leadIdText lead = .ok idText ∧
      buildContact lead = .ok contact ∧
      buildVehicle lead = .ok vehicleBlock ∧
      buildComments lead = .ok commentsBlock ∧
      buildVendor lead = .ok vendorBlock ∧
      buildTags lead = .ok tagsBlock ∧
      p = Xml.elem "prospect" [] none
        (Xml.elem "id" [] (some idText) [] ::
         Xml.elem "customer" [] none (contact :: commentsBlock) ::
         (vehicleBlock ++
          (Xml.elem "id" [("sequence", "1"), ("source", "VERBLEAD")] (some idText) [] ::
           (vendorBlock ++ (providerElem :: tagsBlock))))) := by
  unfold buildProspect at h
  rw [bindE_ok] at h; obtain ⟨idText, hid, h⟩ := h
  rw [bindE_ok] at h; obtain ⟨contact, hcontact, h⟩ := h
  rw [bindE_ok] at h; obtain ⟨veh, hveh, h⟩ := h
  rw [bindE_ok] at h; obtain ⟨id2Text, hid2, h⟩ := h
  rw [bindE_ok] at h; obtain ⟨comm, hcomm, h⟩ := h
  rw [bindE_ok] at h; obtain ⟨vend, hvend, h⟩ := h
  rw [bindE_ok] at h; obtain ⟨tags, htags, hp⟩ := h
  rw [pureE_ok] at hp
  have hsame : id2Text = idText := by rw [hid] at hid2; exact (Except.ok.inj hid2).symm
  rw [hsame] at hp
  exact ⟨idText, contact, veh, comm, vend, tags, hid, hcontact, hveh, hcomm, hvend, htags, hp.symm⟩

/- ## Claim theorems -/

/-- C6: the Dedup Gate accepts the first admit of a hashable identifier and
records it, rejects a subsequent admit of the same identifier as a
duplicate (the gate only ever sees the identifier, so payload differences
cannot matter), and independently accepts a distinct identifier that has
not been recorded. -/
theorem dedup_gate_first_accept_repeat_reject (i j : JValue) (s : List JValue)
    (hi : hashable i = true) (hj : hashable j = true)
    (his : pyMem i s = false) (hji : beqJ i j = false) (hjs : pyMem j s = false) :
    dedupCheck i s = .ok (.accept, i :: s) ∧
    dedupCheck i (i :: s) = .ok (.rejectDuplicate, i :: s) ∧
    dedupCheck j (i :: s) = .ok (.accept, j :: i :: s) := by
  have hii : pyMem i (i :: s) = true := by simp [pyMem, beqJ_refl]
  have hjis : pyMem j (i :: s) = false := by
    simp only [pyMem, List.any_cons, hji, Bool.false_or]
    simpa [pyMem] using hjs
  refine ⟨?_, ?_, ?_⟩
  · simp [dedupCheck, hi, his]
  · simp [dedupCheck, hi, hii]
  · simp [dedupCheck, hj, hjis]

/-- C6 witness: the spec scenario `admit "123"` / `admit "123"` /
`admit "456"` on a fresh gate. -/
theorem dedup_gate_first_accept_repeat_reject_witness :
    dedupCheck (.str "123") [] = .ok (.accept, [JValue.str "123"]) ∧
    dedupCheck (.str "123") [JValue.str "123"] = .ok (.rejectDuplicate, [JValue.str "123"]) ∧
    dedupCheck (.str "456") [JValue.str "123"] =
      .ok (.accept, [JValue.str "456", JValue.str "123"]) :=
  dedup_gate_first_accept_repeat_reject (.str "123") (.str "456") [] rfl rfl rfl rfl rfl

/-- C7 counterexample: two different records both lacking an `id` key; the
second one is rejected as a duplicate because both resolve to the single
identifier `None`, so absent ids are not always accepted. -/
theorem absent_id_second_record_rejected_cex :
    webhookDedup (.obj [("name", .str "A")]) [] = .ok (.accept, [JValue.null]) ∧
    webhookDedup (.obj [("phone", .str "B")]) [JValue.null] =
      .ok (.rejectDuplicate, [JValue.null]) :=
  ⟨rfl, rfl⟩

/-- C7 amended: a record with no `id` key resolves to the single identifier
`None`; the first such record is accepted (recording `None`), and every
later absent-id record is rejected as a duplicate. -/
theorem absent_id_single_null_identifier (fields : List (String × JValue)) (s : List JValue)
    (hid : lookupKey fields "id" = none) :
    (pyMem .null s = false → webhookDedup (.obj fields) s = .ok (.accept, .null :: s)) ∧
    (pyMem .null s = true → webhookDedup (.obj fields) s = .ok (.rejectDuplicate, s)) := by
  have hget : pyGet (.obj fields) "id" .null = .ok .null := by simp [pyGet, hid]
  constructor <;> intro hm <;>
    simp [webhookDedup, hget, bindE_ok_l, dedupCheck, hashable, hm]

/-- C7 amended witness: the absent-id record is accepted on a fresh gate. -/
theorem absent_id_single_null_identifier_witness :
    lookupKey [("name", JValue.str "A")] "id" = none ∧
    webhookDedup (.obj [("name", .str "A")]) [] = .ok (.accept, [JValue.null]) :=
  ⟨rfl, (absent_id_single_null_identifier [("name", .str "A")] [] rfl).1 rfl⟩

/-- C8: the mapper and serializer are pure functions of the input list, so
running document generation twice on the same input yields byte-identical
serialized output. -/
theorem generate_adf_xml_deterministic (leadsData : List JValue) :
    generate_adf_xml leadsData = generate_adf_xml leadsData := rfl

/-- C1 counterexample: a record whose `CUSTOMER` key holds a string; the
mapping of the record raises `AttributeError` instead of degrading the
comments field to absent. -/
theorem wrong_typed_customer_aborts_cex :
    buildProspect (.obj [("CUSTOMER", .str "oops")]) = .error .attributeError := rfl

/-- C1 amended: a missing key degrades its field to absent, but a
wrong-typed value where a mapping was expected (the `CUSTOMER` key holding
a non-dict) makes the comments lookup raise `AttributeError`, and mapping
of the whole record never completes successfully. -/
theorem wrong_typed_customer_aborts (fields : List (String × JValue)) (v : JValue)
    (hv : lookupKey fields "CUSTOMER" = some v) (hno : v.isObj = false) :
    buildComments (.obj fields) = .error .attributeError ∧
    (buildProspect (.obj fields)).toOption = none := by
  have h1 : pyGet (.obj fields) "CUSTOMER" (.obj []) = .ok v := by simp [pyGet, hv]
  have h2 : pyGet v "COMMENTS" (.str "") = .error .attributeError := by
    cases v with
    | obj f => simp [JValue.isObj] at hno
    | null => rfl
    | bool b => rfl
    | num n => rfl
    | str s => rfl
    | arr l => rfl
  have hbc : buildComments (.obj fields) = .error .attributeError := by
    unfold buildComments
    rw [h1, bindE_ok_l, h2, bindE_err_l]
  refine ⟨hbc, ?_⟩
  cases hbp : buildProspect (.obj fields) with
  | error e => simp [Except.toOption]
  | ok p =>
    obtain ⟨_, _, _, comm, _, _, _, _, _, hcomm, _, _, _⟩ := buildProspect_inv hbp
    rw [hbc] at hcomm
    cases hcomm

/-- C1 amended witness: the concrete malformed record. -/
theorem wrong_typed_customer_aborts_witness :
    buildComments (.obj [("CUSTOMER", JValue.str "oops")]) = .error .attributeError ∧
    (buildProspect (.obj [("CUSTOMER", JValue.str "oops")])).toOption = none :=
  wrong_typed_customer_aborts [("CUSTOMER", JValue.str "oops")] (.str "oops") rfl rfl

/-- C2 counterexample: with no primary comments and AI memory
"Customer prefers SUVs", the emitted comment text keeps the label and the
empty prefix, so the AI-memory text is not the sole comment text. -/
theorem ai_memory_not_sole_text_cex :
    buildComments (.obj [("Chat GPT", .str "Customer prefers SUVs")]) =
      .ok [Xml.elem "comments" [] (some "\n\nAI Memory:\nCustomer prefers SUVs") []] ∧
    ("\n\nAI Memory:\nCustomer prefers SUVs" : String) ≠ "Customer prefers SUVs" :=
  ⟨rfl, by decide⟩

/-- C2 amended: when the AI-memory text is non-empty, the emitted comment
text is always the primary comments followed by the "AI Memory:" label and
the AI-memory text — also when the primary comments are empty, in which
case the label and blank-line prefix are retained rather than the
AI-memory text becoming the sole text. -/
theorem comments_merge_appends_label (lead cust : JValue) (c a : String)
    (hc1 : pyGet lead "CUSTOMER" (.obj []) = .ok cust)
    (hc2 : pyGet cust "COMMENTS" (.str "") = .ok (.str c))
    (ha : pyGet lead "Chat GPT" (.str "") = .ok (.str a))
    (hane : a ≠ "") :
    buildComments lead =
      .ok [Xml.elem "comments" [] (some (c ++ "\n\nAI Memory:\n" ++ a)) []] := by
  have hta : truthy (.str a) = true := truthy_str.mpr hane
  have hcomb : (c ++ "\n\nAI Memory:\n" ++ a) ≠ "" := by
    intro h
    have hd := congrArg String.data h
    simp [String.data_append] at hd
  have htc : truthy (.str (c ++ "\n\nAI Memory:\n" ++ a)) = true := truthy_str.mpr hcomb
  unfold buildComments
  rw [hc1, bindE_ok_l, hc2, bindE_ok_l, ha, bindE_ok_l]
  simp only [hta, if_pos, pyStr, htc]
  rfl

/-- C2 amended witness: the spec example, primary comment "Called back" and
AI memory "Customer prefers SUVs". -/
theorem comments_merge_appends_label_witness :
    buildComments (.obj [("CUSTOMER", JValue.obj [("COMMENTS", JValue.str "Called back")]),
        ("Chat GPT", JValue.str "Customer prefers SUVs")]) =
      .ok [Xml.elem "comments" []
        (some "Called back\n\nAI Memory:\nCustomer prefers SUVs") []] := by
  have h := comments_merge_appends_label
    (.obj [("CUSTOMER", JValue.obj [("COMMENTS", JValue.str "Called back")]),
        ("Chat GPT", JValue.str "Customer prefers SUVs")])
    (.obj [("COMMENTS", JValue.str "Called back")])
    "Called back" "Customer prefers SUVs" rfl rfl rfl (by decide)
  simpa using h

/-- C5 counterexample: a record whose `id` key holds `null`; mapping
succeeds but the first id element's text is `str(None) = "None"`, not
empty. -/
theorem null_id_maps_to_None_text_cex :
    (buildProspect (.obj [("id", JValue.null)])).map (fun p => p.children.head?) =
      .ok (some (Xml.elem "id" [] (some "None") [])) ∧
    ("None" : String) ≠ "" :=
  ⟨rfl, by decide⟩

/-- C5 amended: mapping does not raise on a missing or null id; a missing
id yields a first id element with empty text, while a null id yields the
text "None" (Python `str(None)`). -/
theorem id_text_missing_empty_null_None (fields : List (String × JValue)) (p : Xml)
    (h : buildProspect (.obj fields) = .ok p) :
    (lookupKey fields "id" = none →
      p.children.head? = some (Xml.elem "id" [] (some "") [])) ∧
    (lookupKey fields "id" = some .null →
      p.children.head? = some (Xml.elem "id" [] (some "None") [])) := by
  obtain ⟨idText, contact, veh, comm, vend, tags, hid, _, _, _, _, _, hp⟩ :=
    buildProspect_inv h
  subst hp
  unfold leadIdText at hid
  rw [show pyGet (.obj fields) "id" (.str "") =
        .ok ((lookupKey fields "id").getD (.str "")) from rfl, bindE_ok_l, pureE_ok] at hid
  constructor <;> intro hl <;> rw [hl] at hid <;> simp at hid <;>
    simp [Xml.children, ← hid, pyStr, pyRepr]

/-- C5 amended witness: the record with no id at all maps successfully and
its first child is an id element with empty text. -/
theorem id_text_missing_empty_null_None_witness :
    buildProspect (.obj []) = .ok (Xml.elem "prospect" [] none
      [Xml.elem "id" [] (some "") [],
       Xml.elem "customer" [] none [Xml.elem "contact" [] none []],
       Xml.elem "id" [("sequence", "1"), ("source", "VERBLEAD")] (some "") [],
       providerElem]) ∧
    (Xml.elem "prospect" [] none
      [Xml.elem "id" [] (some "") [],
       Xml.elem "customer" [] none [Xml.elem "contact" [] none []],
       Xml.elem "id" [("sequence", "1"), ("source", "VERBLEAD")] (some "") [],
       providerElem]).children.head? = some (Xml.elem "id" [] (some "") []) :=
  ⟨rfl, (id_text_missing_empty_null_None [] _ rfl).1 rfl⟩

/-- Unfolding one key of the per-field loop when the source value is a
string: a sub-element is prepended exactly when that string is non-empty. -/
theorem loopFieldElems_cons_str {src : JValue} {k : String} {ks : List String} {v : String}
    (h : pyGet src k (.str "") = .ok (.str v)) :
    loopFieldElems src (k :: ks) =
      (loopFieldElems src ks).map
        (fun rest => (if v = "" then [] else [Xml.elem k [] (some v) []]) ++ rest) := by
  have hstep : loopFieldElems src (k :: ks) =
      (pyGet src k (.str "") >>= fun v =>
        if truthy v then do
          let t ← textAssign v
          let rest ← loopFieldElems src ks
          pure (Xml.elem k [] (some t) [] :: rest)
        else loopFieldElems src ks) := rfl
  rw [hstep, h, bindE_ok_l]
  by_cases hv : v = ""
  · subst hv
    have ht : truthy (.str "") = false := by simp [truthy]
    rw [ht]
    simp only [Bool.false_eq_true, if_false, if_pos rfl]
    cases hres : loopFieldElems src ks <;> simp [hres, Except.map]
  · rw [truthy_str.mpr hv]
    simp only [if_pos, if_neg hv]
    rw [show textAssign (.str v) = .ok v from rfl, bindE_ok_l]
    cases hres : loopFieldElems src ks <;>
      simp [hres, Except.map, bindE_ok_l, bindE_err_l, pure, Except.pure]

/-- C4 counterexample: a record whose `vehicleOfInterest` container is
present but an empty mapping; no vehicle element is emitted although the
container is present, refuting the "if and only if present" claim. -/
theorem vehicle_block_absent_for_present_empty_container_cex :
    lookupKey [("vehicleOfInterest", JValue.obj [])] "vehicleOfInterest" =
      some (JValue.obj []) ∧
    buildVehicle (.obj [("vehicleOfInterest", JValue.obj [])]) = .ok [] ∧
    (buildProspect (.obj [("vehicleOfInterest", JValue.obj [])])).map
      (fun p => (elemsTagged "vehicle" p).length) = .ok 0 :=
  ⟨rfl, rfl, rfl⟩

/-- C4 amended: the `interest="buy"` vehicle block is emitted iff the
`vehicleOfInterest` container resolves to a non-empty (truthy) mapping —
present-but-empty emits nothing — and inside the block exactly the
year/make/model fields with non-empty values appear, with no all-or-nothing
guard. -/
theorem vehicle_block_iff_truthy_container (fields vf : List (String × JValue))
    (y m mo : String)
    (hvf : pyGet (.obj fields) "vehicleOfInterest" (.obj []) = .ok (.obj vf))
    (hy : pyGet (.obj vf) "year" (.str "") = .ok (.str y))
    (hm : pyGet (.obj vf) "make" (.str "") = .ok (.str m))
    (hmo : pyGet (.obj vf) "model" (.str "") = .ok (.str mo)) :
    buildVehicle (.obj fields) =
      .ok (if vf.isEmpty then [] else
        [Xml.elem "vehicle" [("interest", "buy")] none
          ((if y = "" then [] else [Xml.elem "year" [] (some y) []]) ++
           (if m = "" then [] else [Xml.elem "make" [] (some m) []]) ++
           (if mo = "" then [] else [Xml.elem "model" [] (some mo) []]))]) := by
  have hstep : buildVehicle (.obj fields) =
      (pyGet (.obj fields) "vehicleOfInterest" (.obj []) >>= fun vehicleInfo =>
        if truthy vehicleInfo then do
          let subs ← loopFieldElems vehicleInfo ["year", "make", "model"]
          pure [Xml.elem "vehicle" [("interest", "buy")] none subs]
        else pure []) := rfl
  rw [hstep, hvf, bindE_ok_l]
  have htv : truthy (JValue.obj vf) = !vf.isEmpty := rfl
  cases hie : vf.isEmpty with
  | true =>
    rw [htv, hie]
    simp [hie, pure, Except.pure]
  | false =>
    rw [htv, hie]
    simp only [Bool.not_false, if_pos]
    rw [loopFieldElems_cons_str hy, loopFieldElems_cons_str hm, loopFieldElems_cons_str hmo,
      show loopFieldElems (JValue.obj vf) [] = pure [] from rfl]
    simp [hie, Except.map, pure, Except.pure, bindE_ok_l, List.append_assoc]

/-- C4 amended witness: a container holding only a year still emits the
vehicle block, with just the year sub-element. -/
theorem vehicle_block_iff_truthy_container_witness :
    buildVehicle (.obj [("vehicleOfInterest", JValue.obj [("year", JValue.str "2020")])]) =
      .ok [Xml.elem "vehicle" [("interest", "buy")] none
        [Xml.elem "year" [] (some "2020") []]] := by
  have h := vehicle_block_iff_truthy_container
    [("vehicleOfInterest", JValue.obj [("year", JValue.str "2020")])]
    [("year", JValue.str "2020")] "2020" "" "" rfl rfl rfl rfl
  simpa using h

/-- Every element of a successful prospect subtree that carries empty text
is one of the two mandatory id elements or a tag element. -/
theorem prospect_empty_text_only_id_tag {lead : JValue} {p : Xml}
    (h : buildProspect lead = .ok p) :
    ∀ e ∈ subElems p, e.text = some "" → e.tag = "id" ∨ e.tag = "tag" := by
  obtain ⟨idText, contact, veh, comm, vend, tags, hid, hcontact, hveh, hcomm, hvend,
    htags, hp⟩ := buildProspect_inv h
  subst hp
  intro e he htext
  have hgoodcontra : ∀ {cs : List Xml}, (∀ x ∈ cs, goodLeaf x) →
      e ∈ subElemsList cs → False := by
    intro cs hall hmem
    obtain ⟨_, _, t, htx, ht⟩ := subElemsList_goodLeaf hall hmem
    rw [htext] at htx
    exact ht (Option.some.inj htx).symm
  simp only [subElems] at he
  rcases List.mem_cons.mp he with rfl | he
  · simp [Xml.text] at htext
  rw [mem_subElemsList] at he
  obtain ⟨c, hc, hec⟩ := he
  simp only [List.mem_cons, List.mem_append] at hc
  rcases hc with rfl | hc
  · rw [subElems_leaf (Xml.elem "id" [] (some idText) []) rfl] at hec
    rcases List.mem_singleton.mp hec with rfl
    exact Or.inl rfl
  rcases hc with rfl | hc
  · -- the customer element: contact shell plus optional comments
    obtain ⟨cs, hcc, hgood⟩ := buildContact_ok hcontact
    subst hcc
    simp only [subElems, subElemsList] at hec
    rcases List.mem_cons.mp hec with rfl | hec
    · simp [Xml.text] at htext
    rcases List.mem_append.mp hec with hec | hec
    · rcases List.mem_cons.mp hec with rfl | hec
      · simp [Xml.text] at htext
      · exact absurd hec (fun hx => hgoodcontra hgood hx)
    · rcases buildComments_ok hcomm with rfl | ⟨t, ht, rfl⟩
      · cases hec
      · simp only [subElemsList, subElems, List.append_nil] at hec
        rcases List.mem_singleton.mp hec with rfl
        rw [show (Xml.elem "comments" [] (some t) []).text = some t from rfl] at htext
        exact absurd (Option.some.inj htext) ht
  rcases hc with hc | hc
  · -- inside the optional vehicle block
    rcases buildVehicle_ok hveh with rfl | ⟨subs, rfl, hgood⟩
    · cases hc
    rcases List.mem_singleton.mp hc with rfl
    simp only [subElems] at hec
    rcases List.mem_cons.mp hec with rfl | hec
    · simp [Xml.text] at htext
    · exact absurd hec (fun hx => hgoodcontra hgood hx)
  rcases hc with rfl | hc
  · rw [subElems_leaf (Xml.elem "id" [("sequence", "1"), ("source", "VERBLEAD")]
      (some idText) []) rfl] at hec
    rcases List.mem_singleton.mp hec with rfl
    exact Or.inl rfl
  rcases hc with hc | hc
  · -- inside the optional vendor block
    rcases buildVendor_ok hvend with rfl | ⟨t, ht, rfl⟩
    · cases hc
    rcases List.mem_singleton.mp hc with rfl
    simp only [subElems, subElemsList, List.append_nil] at hec
    rcases List.mem_cons.mp hec with rfl | hec
    · simp [Xml.text] at htext
    rcases List.mem_singleton.mp hec with rfl
    rw [show (Xml.elem "vendorname" [] (some t) []).text = some t from rfl] at htext
    exact absurd (Option.some.inj htext) ht
  rcases hc with rfl | hc
  · -- the constant provider block
    simp only [providerElem, subElems, subElemsList, List.append_nil] at hec
    rcases List.mem_cons.mp hec with rfl | hec
    · simp [Xml.text] at htext
    rcases List.mem_cons.mp hec with rfl | hec
    · simp [Xml.text] at htext
    rcases List.mem_singleton.mp hec with rfl
    simp [Xml.text] at htext
  · -- tag elements are exempt
    obtain ⟨s, rfl⟩ := buildTags_ok htags c hc
    rw [subElems_leaf (Xml.elem "tag" [] (some s) []) rfl] at hec
    rcases List.mem_singleton.mp hec with rfl
    exact Or.inr rfl

/-- C3 amended: an empty or absent optional source field never emits an
element; the only elements of a mapped prospect that can carry empty text
are the two mandatory id elements (when the record's id is absent or empty)
and tag elements produced by literal empty strings in the tags list. -/
theorem no_empty_optional_elements (lead : JValue) (p : Xml)
    (h : buildProspect lead = .ok p) :
    emptyOptionalFree p = true := by
  unfold emptyOptionalFree
  rw [List.all_eq_true]
  intro e he
  by_cases hx : e.text = some ""
  · rcases prospect_empty_text_only_id_tag h e he hx with h1 | h1 <;> simp [h1, hx]
  · simp [hx]

/-- C3 amended witness: the empty record maps successfully and its tree
passes the empty-text check. -/
theorem no_empty_optional_elements_witness :
    buildProspect (.obj []) = .ok (Xml.elem "prospect" [] none
      [Xml.elem "id" [] (some "") [],
       Xml.elem "customer" [] none [Xml.elem "contact" [] none []],
       Xml.elem "id" [("sequence", "1"), ("source", "VERBLEAD")] (some "") [],
       providerElem]) ∧
    emptyOptionalFree (Xml.elem "prospect" [] none
      [Xml.elem "id" [] (some "") [],
       Xml.elem "customer" [] none [Xml.elem "contact" [] none []],
       Xml.elem "id" [("sequence", "1"), ("source", "VERBLEAD")] (some "") [],
       providerElem]) = true :=
  ⟨rfl, no_empty_optional_elements (.obj []) _ rfl⟩

/-- C3 counterexample: a record with no id at all still emits two id
elements with empty text, so an absent source field does produce empty
elements. -/
theorem empty_id_elements_emitted_cex :
    lookupKey ([] : List (String × JValue)) "id" = none ∧
    (buildProspect (.obj [])).map (fun p => (elemsTagged "id" p).map Xml.text) =
      .ok [some "", some ""] :=
  ⟨rfl, rfl⟩

/-- The tag of a successfully mapped prospect is `prospect`. -/
theorem buildProspect_tag {lead : JValue} {p : Xml}
    (h : buildProspect lead = .ok p) : p.tag = "prospect" := by
  obtain ⟨_, _, _, _, _, _, _, _, _, _, _, _, hp⟩ := buildProspect_inv h
  subst hp
  rfl

/-- A successful batch maps each lead to the prospect at the same index. -/
theorem prospectsOf_map {leads : List JValue} {ps : List Xml}
    (h : prospectsOf leads = .ok ps) :
    leads.map buildProspect = ps.map Except.ok := by
  induction leads generalizing ps with
  | nil =>
    unfold prospectsOf at h
    rw [pureE_ok] at h
    subst h
    rfl
  | cons lead rest ih =>
    unfold prospectsOf at h
    rw [bindE_ok] at h
    obtain ⟨p, hp, h⟩ := h
    rw [bindE_ok] at h
    obtain ⟨ps', hps', hpure⟩ := h
    rw [pureE_ok] at hpure
    subst hpure
    simp [hp, ih hps']

/-- Every prospect of a successful batch carries the `prospect` tag. -/
theorem prospectsOf_tags {leads : List JValue} {ps : List Xml}
    (h : prospectsOf leads = .ok ps) :
    ps.all (fun p => p.tag == "prospect") = true := by
  induction leads generalizing ps with
  | nil =>
    unfold prospectsOf at h
    rw [pureE_ok] at h
    subst h
    rfl
  | cons lead rest ih =>
    unfold prospectsOf at h
    rw [bindE_ok] at h
    obtain ⟨p, hp, h⟩ := h
    rw [bindE_ok] at h
    obtain ⟨ps', hps', hpure⟩ := h
    rw [pureE_ok] at hpure
    subst hpure
    simp [List.all_cons, buildProspect_tag hp, ih hps']

/-- C9: for a non-empty batch whose mapping succeeds, the produced byte
document is the serialization of an `adf` root whose children are exactly
one `prospect` node per input record, at the same index as its record
(input order preserved). -/
theorem adf_root_one_prospect_per_lead (leads : List JValue) (prospects : List Xml)
    (hne : leads ≠ []) (hok : prospectsOf leads = .ok prospects) :
    generate_adf_xml leads =
      .ok (some (serializeDoc (Xml.elem "adf" [] none prospects))) ∧
    prospects.length = leads.length ∧
    leads.map buildProspect = prospects.map Except.ok ∧
    prospects.all (fun p => p.tag == "prospect") = true := by
  have hmap := prospectsOf_map hok
  have hlen : prospects.length = leads.length := by
    have hl := congrArg List.length hmap
    simpa using hl.symm
  have hie : leads.isEmpty = false := by
    cases leads with
    | nil => exact absurd rfl hne
    | cons a l => rfl
  have htree : generate_adf_tree leads = .ok (some (Xml.elem "adf" [] none prospects)) := by
    unfold generate_adf_tree
    rw [hie]
    simp only [Bool.false_eq_true, if_false]
    rw [hok, bindE_ok_l]
    rfl
  refine ⟨?_, hlen, hmap, prospectsOf_tags hok⟩
  unfold generate_adf_xml
  rw [htree, bindE_ok_l]
  rfl

/-- C9 witness: a concrete two-record batch yields an `adf` root with the
two mapped prospects in input order. -/
theorem adf_root_one_prospect_per_lead_witness :
    generate_adf_xml [JValue.obj [("id", JValue.str "1")], JValue.obj []] =
      .ok (some (serializeDoc (Xml.elem "adf" [] none
        [Xml.elem "prospect" [] none
          [Xml.elem "id" [] (some "1") [],
           Xml.elem "customer" [] none [Xml.elem "contact" [] none []],
           Xml.elem "id" [("sequence", "1"), ("source", "VERBLEAD")] (some "1") [],
           providerElem],
         Xml.elem "prospect" [] none
          [Xml.elem "id" [] (some "") [],
           Xml.elem "customer" [] none [Xml.elem "contact" [] none []],
           Xml.elem "id" [("sequence", "1"), ("source", "VERBLEAD")] (some "") [],
           providerElem]]))) ∧
    ([Xml.elem "prospect" [] none
        [Xml.elem "id" [] (some "1") [],
         Xml.elem "customer" [] none [Xml.elem "contact" [] none []],
         Xml.elem "id" [("sequence", "1"), ("source", "VERBLEAD")] (some "1") [],
         providerElem],
      Xml.elem "prospect" [] none
        [Xml.elem "id" [] (some "") [],
         Xml.elem "customer" [] none [Xml.elem "contact" [] none []],
         Xml.elem "id" [("sequence", "1"), ("source", "VERBLEAD")] (some "") [],
         providerElem]] : List Xml).length =
      [JValue.obj [("id", JValue.str "1")], JValue.obj []].length ∧
    [JValue.obj [("id", JValue.str "1")], JValue.obj []].map buildProspect =
      ([Xml.elem "prospect" [] none
          [Xml.elem "id" [] (some "1") [],
           Xml.elem "customer" [] none [Xml.elem "contact" [] none []],
           Xml.elem "id" [("sequence", "1"), ("source", "VERBLEAD")] (some "1") [],
           providerElem],
        Xml.elem "prospect" [] none
          [Xml.elem "id" [] (some "") [],
           Xml.elem "customer" [] none [Xml.elem "contact" [] none []],
           Xml.elem "id" [("sequence", "1"), ("source", "VERBLEAD")] (some "") [],
           providerElem]] : List Xml).map Except.ok ∧
    ([Xml.elem "prospect" [] none
        [Xml.elem "id" [] (some "1") [],
         Xml.elem "customer" [] none [Xml.elem "contact" [] none []],
         Xml.elem "id" [("sequence", "1"), ("source", "VERBLEAD")] (some "1") [],
         providerElem],
      Xml.elem "prospect" [] none
        [Xml.elem "id" [] (some "") [],
         Xml.elem "customer" [] none [Xml.elem "contact" [] none []],
         Xml.elem "id" [("sequence", "1"), ("source", "VERBLEAD")] (some "") [],
         providerElem]] : List Xml).all (fun p => p.tag == "prospect") = true :=
  adf_root_one_prospect_per_lead
    [JValue.obj [("id", JValue.str "1")], JValue.obj []] _ (List.cons_ne_nil _ _) rfl

theorem subElemsList_append (a b : List Xml) :
    subElemsList (a ++ b) = subElemsList a ++ subElemsList b := by
  induction a with
  | nil => rfl
  | cons x xs ih => simp [subElemsList, ih]

theorem filter_tag_id_nil {l : List Xml} (h : ∀ e ∈ l, e.tag ≠ "id") :
    l.filter (fun e => e.tag == "id") = [] := by
  rw [List.filter_eq_nil_iff]
  intro e he
  simp [h e he]

/-- Assembling the id-filtered subtree of a prospect from per-region
filter results. -/
theorem filter_id_prospect_children (id1 cust id2 prov : Xml) (veh vend tags : List Xml)
    (h1 : (subElems id1).filter (fun e => e.tag == "id") = [id1])
    (hc : (subElems cust).filter (fun e => e.tag == "id") = [])
    (hv : (subElemsList veh).filter (fun e => e.tag == "id") = [])
    (h2 : (subElems id2).filter (fun e => e.tag == "id") = [id2])
    (hd : (subElemsList vend).filter (fun e => e.tag == "id") = [])
    (hp : (subElems prov).filter (fun e => e.tag == "id") = [])
    (ht : (subElemsList tags).filter (fun e => e.tag == "id") = []) :
    elemsTagged "id" (Xml.elem "prospect" [] none
      (id1 :: cust :: (veh ++ id2 :: (vend ++ (prov :: tags))))) = [id1, id2] := by
  have hexpand : subElems (Xml.elem "prospect" [] none
      (id1 :: cust :: (veh ++ id2 :: (vend ++ (prov :: tags))))) =
    Xml.elem "prospect" [] none (id1 :: cust :: (veh ++ id2 :: (vend ++ (prov :: tags)))) ::
      (subElems id1 ++ (subElems cust ++ (subElemsList veh ++ (subElems id2 ++
        (subElemsList vend ++ (subElems prov ++ subElemsList tags)))))) := by
    simp [subElems, subElemsList, subElemsList_append, List.append_assoc]
  have hroot : ((Xml.elem "prospect" [] none
      (id1 :: cust :: (veh ++ id2 :: (vend ++ (prov :: tags))))).tag == "id") = false := rfl
  unfold elemsTagged
  rw [hexpand]
  simp only [List.filter_cons, hroot, Bool.false_eq_true, if_false, List.filter_append,
    h1, hc, hv, h2, hd, hp, ht]
  simp

/-- C10: every successfully mapped prospect contains exactly two id
elements with identical text: a plain id as first child and an id with
`sequence="1"` and `source="VERBLEAD"` placed right after the optional
vehicle block. -/
theorem two_id_elements_same_text (lead : JValue) (p : Xml)
    (h : buildProspect lead = .ok p) :
    ∃ t cust veh rest,
      p.children = Xml.elem "id" [] (some t) [] :: cust ::
        (veh ++ Xml.elem "id" [("sequence", "1"), ("source", "VERBLEAD")] (some t) [] :: rest) ∧
      (∀ v' ∈ veh, Xml.tag v' = "vehicle") ∧
      elemsTagged "id" p =
        [Xml.elem "id" [] (some t) [],
         Xml.elem "id" [("sequence", "1"), ("source", "VERBLEAD")] (some t) []] := by
  obtain ⟨idText, contact, veh, comm, vend, tags, hid, hcontact, hveh, hcomm, hvend,
    htags, hp⟩ := buildProspect_inv h
  subst hp
  obtain ⟨cs, hcc, hgoodc⟩ := buildContact_ok hcontact
  subst hcc
  refine ⟨idText, Xml.elem "customer" [] none (Xml.elem "contact" [] none cs :: comm), veh,
    vend ++ (providerElem :: tags), rfl, ?_, ?_⟩
  · intro v' hv'
    rcases buildVehicle_ok hveh with rfl | ⟨subs, rfl, _⟩
    · cases hv'
    · rcases List.mem_singleton.mp hv' with rfl
      rfl
  · have hcustF : (subElems (Xml.elem "customer" [] none
        (Xml.elem "contact" [] none cs :: comm))).filter (fun e => e.tag == "id") = [] := by
      apply filter_tag_id_nil
      intro e he
      simp only [subElems, subElemsList] at he
      rcases List.mem_cons.mp he with rfl | he
      · exact fun hq => (by decide : ("customer" : String) ≠ "id") hq
      rcases List.mem_append.mp he with he | he
      · rcases List.mem_cons.mp he with rfl | he
        · exact fun hq => (by decide : ("contact" : String) ≠ "id") hq
        · exact (subElemsList_goodLeaf hgoodc he).1
      · rcases buildComments_ok hcomm with rfl | ⟨t, _, rfl⟩
        · cases he
        · simp only [subElemsList, subElems, List.append_nil] at he
          rcases List.mem_singleton.mp he with rfl
          exact fun hq => (by decide : ("comments" : String) ≠ "id") hq
    have hvehF : (subElemsList veh).filter (fun e => e.tag == "id") = [] := by
      apply filter_tag_id_nil
      intro e he
      rcases buildVehicle_ok hveh with rfl | ⟨subs, rfl, hgood⟩
      · cases he
      · simp only [subElemsList, subElems, List.append_nil] at he
        rcases List.mem_cons.mp he with rfl | he
        · exact fun hq => (by decide : ("vehicle" : String) ≠ "id") hq
        · exact (subElemsList_goodLeaf hgood he).1
    have hvendF : (subElemsList vend).filter (fun e => e.tag == "id") = [] := by
      apply filter_tag_id_nil
      intro e he
      rcases buildVendor_ok hvend with rfl | ⟨t, _, rfl⟩
      · cases he
      · simp only [subElemsList, subElems, List.append_nil] at he
        rcases List.mem_cons.mp he with rfl | he
        · exact fun hq => (by decide : ("vendor" : String) ≠ "id") hq
        rcases List.mem_singleton.mp he with rfl
        exact fun hq => (by decide : ("vendorname" : String) ≠ "id") hq
    have htagsF : (subElemsList tags).filter (fun e => e.tag == "id") = [] := by
      apply filter_tag_id_nil
      intro e he
      rw [mem_subElemsList] at he
      obtain ⟨c, hc, hec⟩ := he
      obtain ⟨s, rfl⟩ := buildTags_ok htags c hc
      rw [subElems_leaf (Xml.elem "tag" [] (some s) []) rfl] at hec
      rcases List.mem_singleton.mp hec with rfl
      exact fun hq => (by decide : ("tag" : String) ≠ "id") hq
    exact filter_id_prospect_children
      (Xml.elem "id" [] (some idText) [])
      (Xml.elem "customer" [] none (Xml.elem "contact" [] none cs :: comm))
      (Xml.elem "id" [("sequence", "1"), ("source", "VERBLEAD")] (some idText) [])
      providerElem veh vend tags rfl hcustF hvehF rfl hvendF rfl htagsF

/-- C10 witness: a record with id "123" and a partially populated vehicle
container; its prospect has the plain id first, the attributed id right
after the vehicle block, and exactly those two id elements, both with
text "123". -/
theorem two_id_elements_same_text_witness :
    ∃ t cust veh rest,
      (Xml.elem "prospect" [] none
        [Xml.elem "id" [] (some "123") [],
         Xml.elem "customer" [] none [Xml.elem "contact" [] none []],
         Xml.elem "vehicle" [("interest", "buy")] none [Xml.elem "make" [] (some "Jeep") []],
         Xml.elem "id" [("sequence", "1"), ("source", "VERBLEAD")] (some "123") [],
         providerElem]).children =
        Xml.elem "id" [] (some t) [] :: cust ::
          (veh ++ Xml.elem "id" [("sequence", "1"), ("source", "VERBLEAD")] (some t) [] :: rest) ∧
      (∀ v' ∈ veh, Xml.tag v' = "vehicle") ∧
      elemsTagged "id" (Xml.elem "prospect" [] none
        [Xml.elem "id" [] (some "123") [],
         Xml.elem "customer" [] none [Xml.elem "contact" [] none []],
         Xml.elem "vehicle" [("interest", "buy")] none [Xml.elem "make" [] (some "Jeep") []],
         Xml.elem "id" [("sequence", "1"), ("source", "VERBLEAD")] (some "123") [],
         providerElem]) =
        [Xml.elem "id" [] (some t) [],
         Xml.elem "id" [("sequence", "1"), ("source", "VERBLEAD")] (some t) []] :=
  two_id_elements_same_text
    (.obj [("id", JValue.str "123"), ("vehicleOfInterest", JValue.obj [("make", JValue.str "Jeep")])])
    (Xml.elem "prospect" [] none
      [Xml.elem "id" [] (some "123") [],
       Xml.elem "customer" [] none [Xml.elem "contact" [] none []],
       Xml.elem "vehicle" [("interest", "buy")] none [Xml.elem "make" [] (some "Jeep") []],
       Xml.elem "id" [("sequence", "1"), ("source", "VERBLEAD")] (some "123") [],
       providerElem])
    rfl
